import Mathlib

/-!
# ClawReader — verification of the extraction and conversion pipeline

Shallow embedding of the text-extraction and PDF-composition code of the
ClawReader repository (`src/utils/mobiParser.ts`, `src/utils/textExtractor.ts`,
`src/components/ConverterView.tsx`), together with theorems settling the
specification claims about it.

JavaScript strings are modelled as lists of UTF-16 code units (`List Nat`),
byte buffers as lists of bytes (`List Nat`), and thrown exceptions as
`Except String` / `Option` results.
-/

namespace ClawReader

/-- Equality of `Except` results is decidable when it is on both sides. -/
instance {e a : Type} [DecidableEq e] [DecidableEq a] : DecidableEq (Except e a) :=
  fun x y =>
    match x, y with
    | .error u, .error v => decidable_of_iff (u = v) (by simp)
    | .ok u, .ok v => decidable_of_iff (u = v) (by simp)
    | .error _, .ok _ => .isFalse (by simp)
    | .ok _, .error _ => .isFalse (by simp)

/-- Encode a list of Unicode scalar values as UTF-16 code units
(surrogate pairs for scalars above `0xFFFF`), the representation of a
JavaScript string. -/
def utf16OfScalars : List Nat → List Nat
  | [] => []
  | c :: cs =>
    if c < 0x10000 then c :: utf16OfScalars cs
    else
      (0xD800 + (c - 0x10000) / 0x400) :: (0xDC00 + (c - 0x10000) % 0x400) ::
        utf16OfScalars cs

/-- A Lean string literal as a JavaScript string (UTF-16 code-unit list). -/
def jstr (s : String) : List Nat :=
  utf16OfScalars (s.data.map Char.toNat)

/-- Convert UTF-16 code units back to scalar values, pairing surrogates and
replacing lone surrogates with U+FFFD, as JavaScript's `TextEncoder` does.
The fuel only bounds the recursion: every step consumes at least one code
unit, so fuel equal to the input length is enough. -/
def utf16ToScalarsGo : Nat → List Nat → List Nat
  | _, [] => []
  | 0, _ :: _ => []
  | fuel + 1, u :: us =>
    if 0xD800 ≤ u ∧ u ≤ 0xDBFF then
      match us with
      | u2 :: us2 =>
        if 0xDC00 ≤ u2 ∧ u2 ≤ 0xDFFF then
          (0x10000 + (u - 0xD800) * 0x400 + (u2 - 0xDC00)) :: utf16ToScalarsGo fuel us2
        else 0xFFFD :: utf16ToScalarsGo fuel (u2 :: us2)
      | [] => [0xFFFD]
    else if 0xDC00 ≤ u ∧ u ≤ 0xDFFF then 0xFFFD :: utf16ToScalarsGo fuel us
    else u :: utf16ToScalarsGo fuel us

/-- JavaScript's UTF-16-to-scalars conversion on a whole string. -/
def utf16ToScalars (s : List Nat) : List Nat :=
  utf16ToScalarsGo s.length s

/-- UTF-8 encoding of a single Unicode scalar value. -/
def utf8EncodeScalar (c : Nat) : List Nat :=
  if c < 0x80 then [c]
  else if c < 0x800 then [0xC0 ||| (c >>> 6), 0x80 ||| (c &&& 0x3F)]
  else if c < 0x10000 then
    [0xE0 ||| (c >>> 12), 0x80 ||| ((c >>> 6) &&& 0x3F), 0x80 ||| (c &&& 0x3F)]
  else
    [0xF0 ||| (c >>> 18), 0x80 ||| ((c >>> 12) &&& 0x3F),
     0x80 ||| ((c >>> 6) &&& 0x3F), 0x80 ||| (c &&& 0x3F)]

/-- JavaScript's `TextEncoder.encode`: UTF-16 string to UTF-8 bytes. -/
def textEncoderEncode (s : List Nat) : List Nat :=
  ((utf16ToScalars s).map utf8EncodeScalar).flatten

/-- The WHATWG UTF-8 decoding loop on a byte list, returning Unicode scalar
values. With `fatal = true` it models `TextDecoder('utf-8', fatal: true)` and
returns `none` on the first invalid sequence; with `fatal = false` it models
the default permissive decoder, emitting U+FFFD for each maximal invalid
subpart and (given enough fuel) never returning `none`. The fuel only bounds
the recursion; each step consumes at least one byte. -/
def utf8DecodeGo (fatal : Bool) : Nat → List Nat → Option (List Nat)
  | _, [] => some []
  | 0, _ :: _ => none
  | fuel + 1, b :: rest =>
    if b ≤ 0x7F then (utf8DecodeGo fatal fuel rest).map (b :: ·)
    else if 0xC2 ≤ b ∧ b ≤ 0xDF then
      match rest with
      | [] => if fatal then none else some [0xFFFD]
      | b2 :: rest2 =>
        if 0x80 ≤ b2 ∧ b2 ≤ 0xBF then
          (utf8DecodeGo fatal fuel rest2).map ((((b &&& 0x1F) <<< 6) ||| (b2 &&& 0x3F)) :: ·)
        else if fatal then none
        else (utf8DecodeGo fatal fuel (b2 :: rest2)).map (0xFFFD :: ·)
    else if 0xE0 ≤ b ∧ b ≤ 0xEF then
      match rest with
      | [] => if fatal then none else some [0xFFFD]
      | b2 :: rest2 =>
        if (if b = 0xE0 then 0xA0 else 0x80) ≤ b2 ∧
            b2 ≤ (if b = 0xED then 0x9F else 0xBF) then
          match rest2 with
          | [] => if fatal then none else some [0xFFFD]
          | b3 :: rest3 =>
            if 0x80 ≤ b3 ∧ b3 ≤ 0xBF then
              (utf8DecodeGo fatal fuel rest3).map
                ((((b &&& 0x0F) <<< 12) ||| ((b2 &&& 0x3F) <<< 6) ||| (b3 &&& 0x3F)) :: ·)
            else if fatal then none
            else (utf8DecodeGo fatal fuel (b3 :: rest3)).map (0xFFFD :: ·)
        else if fatal then none
        else (utf8DecodeGo fatal fuel (b2 :: rest2)).map (0xFFFD :: ·)
    else if 0xF0 ≤ b ∧ b ≤ 0xF4 then
      match rest with
      | [] => if fatal then none else some [0xFFFD]
      | b2 :: rest2 =>
        if (if b = 0xF0 then 0x90 else 0x80) ≤ b2 ∧
            b2 ≤ (if b = 0xF4 then 0x8F else 0xBF) then
          match rest2 with
          | [] => if fatal then none else some [0xFFFD]
          | b3 :: rest3 =>
            if 0x80 ≤ b3 ∧ b3 ≤ 0xBF then
              match rest3 with
              | [] => if fatal then none else some [0xFFFD]
              | b4 :: rest4 =>
                if 0x80 ≤ b4 ∧ b4 ≤ 0xBF then
                  (utf8DecodeGo fatal fuel rest4).map
                    ((((b &&& 0x07) <<< 18) ||| ((b2 &&& 0x3F) <<< 12) |||
                      ((b3 &&& 0x3F) <<< 6) ||| (b4 &&& 0x3F)) :: ·)
                else if fatal then none
                else (utf8DecodeGo fatal fuel (b4 :: rest4)).map (0xFFFD :: ·)
            else if fatal then none
            else (utf8DecodeGo fatal fuel (b3 :: rest3)).map (0xFFFD :: ·)
        else if fatal then none
        else (utf8DecodeGo fatal fuel (b2 :: rest2)).map (0xFFFD :: ·)
    else
      if fatal then none else (utf8DecodeGo fatal fuel rest).map (0xFFFD :: ·)

/-- The WHATWG UTF-8 decoder on a whole byte buffer: fuel equal to the length
is enough, as every step of `utf8DecodeGo` consumes at least one byte. -/
def utf8Decode (fatal : Bool) (bytes : List Nat) : Option (List Nat) :=
  utf8DecodeGo fatal bytes.length bytes

/-- Modelled from the spec: the repository decodes with the browser's
`TextDecoder('gbk', fatal: true)`, whose implementation is a platform
primitive absent from the sources. Following the spec's words — a strict
East-Asian legacy double-byte encoding — this model accepts ASCII bytes as
themselves, byte `0x80` as the euro sign, and a lead byte in `[0x81, 0xFE]`
followed by a trail byte in `[0x40, 0xFE]` other than `0x7F` as a double-byte
code (mapped injectively to a scalar placeholder, since the actual GBK table
is external data); any other sequence is a strict decoding failure. -/
def gbkDecode : List Nat → Option (List Nat)
  | [] => some []
  | b :: rest =>
    if b ≤ 0x7F then (gbkDecode rest).map (b :: ·)
    else if b = 0x80 then (gbkDecode rest).map (0x20AC :: ·)
    else if 0x81 ≤ b ∧ b ≤ 0xFE then
      match rest with
      | [] => none
      | b2 :: rest2 =>
        if 0x40 ≤ b2 ∧ b2 ≤ 0xFE ∧ b2 ≠ 0x7F then
          (gbkDecode rest2).map
            ((0x20000 + (b - 0x81) * 190 + (if b2 < 0x7F then b2 - 0x40 else b2 - 0x41)) :: ·)
        else none
    else none

/-- Step 6 of `parseMobi` (`src/utils/mobiParser.ts` lines 72–84): try strict
UTF-8, then strict GBK, then permissive UTF-8, returning the decoded text as a
JavaScript string (UTF-16 code units). -/
def resolveText (bytes : List Nat) : List Nat :=
  match utf8Decode true bytes with
  | some s => utf16OfScalars s
  | none =>
    match gbkDecode bytes with
    | some s => utf16OfScalars s
    | none => utf16OfScalars ((utf8Decode false bytes).getD [])

/-- Length of a PalmDOC back-reference copy, from the second opcode byte:
`(nextByte & 0x07) + 3` (`src/utils/mobiParser.ts` line 115). -/
def backRefLength (nextByte : Nat) : Nat :=
  (nextByte &&& 0x07) + 3

/-- The inner copy loop of a PalmDOC back-reference
(`src/utils/mobiParser.ts` lines 117–122): copy `len` bytes one at a time
starting at position `src` of the output, skipping source indices that are out
of range of the output *at the time of the copy* (the output grows as bytes
are pushed, so overlapping copies replay already-emitted bytes). -/
def copyBack : Nat → Int → List Nat → List Nat
  | 0, _, out => out
  | len + 1, src, out =>
    let out' := if 0 ≤ src ∧ src < (out.length : Int)
      then out ++ [out.getD src.toNat 0] else out
    copyBack len (src + 1) out'

/-- The decompression loop of `decompressPalmDOC`
(`src/utils/mobiParser.ts` lines 94–124): `data` is the unread input,
`out` the output accumulated so far. -/
def palmLoop : List Nat → List Nat → List Nat
  | [], out => out
  | b :: rest, out =>
    if 1 ≤ b ∧ b ≤ 8 then
      palmLoop (rest.drop b) (out ++ rest.take b)
    else if b < 0x80 then
      palmLoop rest (out ++ [b])
    else if 0xC0 ≤ b then
      palmLoop rest (out ++ [32, b ^^^ 0x80])
    else
      match rest with
      | [] => out
      | nextByte :: rest2 =>
        let distance := ((b &&& 0x3F) <<< 5) ||| (nextByte >>> 3)
        palmLoop rest2
          (copyBack (backRefLength nextByte) ((out.length : Int) - distance) out)
termination_by data _ => data.length
decreasing_by
  all_goals simp [List.length_cons, List.length_drop]
  all_goals omega

/-- `decompressPalmDOC` (`src/utils/mobiParser.ts` lines 90–127). -/
def decompressPalmDOC (data : List Nat) : List Nat :=
  palmLoop data []

/-- Fuel-indexed version of the decompression loop: performs at most `fuel`
iterations of the `while (p < data.length)` loop and stops (returning the
output so far) when the fuel runs out. -/
def palmLoopFuel : Nat → List Nat → List Nat → List Nat
  | 0, _, out => out
  | _, [], out => out
  | fuel + 1, b :: rest, out =>
    if 1 ≤ b ∧ b ≤ 8 then
      palmLoopFuel fuel (rest.drop b) (out ++ rest.take b)
    else if b < 0x80 then
      palmLoopFuel fuel rest (out ++ [b])
    else if 0xC0 ≤ b then
      palmLoopFuel fuel rest (out ++ [32, b ^^^ 0x80])
    else
      match rest with
      | [] => out
      | nextByte :: rest2 =>
        let distance := ((b &&& 0x3F) <<< 5) ||| (nextByte >>> 3)
        palmLoopFuel fuel rest2
          (copyBack (backRefLength nextByte) ((out.length : Int) - distance) out)

/-- A big-endian 16-bit read from a byte buffer, as `DataView.getUint16` on an
`ArrayBuffer`: throws a `RangeError` when the two bytes are not entirely
inside the buffer. -/
def getUint16BE (buf : List Nat) (off : Nat) : Except String Nat :=
  if off + 2 ≤ buf.length then
    .ok (buf.getD off 0 * 256 + buf.getD (off + 1) 0)
  else .error "RangeError: Offset is outside the bounds of the DataView"

/-- A big-endian 32-bit read from a byte buffer, as `DataView.getUint32`. -/
def getUint32BE (buf : List Nat) (off : Nat) : Except String Nat :=
  if off + 4 ≤ buf.length then
    .ok (((buf.getD off 0 * 256 + buf.getD (off + 1) 0) * 256 +
      buf.getD (off + 2) 0) * 256 + buf.getD (off + 3) 0)
  else .error "RangeError: Offset is outside the bounds of the DataView"

/-- The record-offset reading loop of `parseMobi`
(`src/utils/mobiParser.ts` lines 14–18): read `n` 32-bit offsets starting at
table index `i` (entry `i` lives at byte `78 + i * 8`). -/
def readOffsets (buf : List Nat) : Nat → Nat → Except String (List Nat)
  | _, 0 => .ok []
  | i, n + 1 => do
    let o ← getUint32BE buf (78 + i * 8)
    let rest ← readOffsets buf (i + 1) n
    .ok (o :: rest)

/-- Outcome of the text-record loop: either the early `return` of the
unsupported-compression message, or the list of decoded record chunks. -/
inductive RecordsOutcome where
  | unsupported : RecordsOutcome
  | chunks : List (List Nat) → RecordsOutcome
deriving DecidableEq

/-- The record slice `[start, end)` computed for text record `i`
(`src/utils/mobiParser.ts` lines 37–38) lies inside the buffer and is
non-empty; records failing this test are `continue`d over (line 40). -/
def sliceOk (buf offsets : List Nat) (i : Nat) : Prop :=
  offsets.getD i 0 < buf.length ∧
    (if i + 1 < offsets.length then offsets.getD (i + 1) 0 else buf.length) ≤ buf.length ∧
    offsets.getD i 0 < (if i + 1 < offsets.length then offsets.getD (i + 1) 0 else buf.length)

instance (buf offsets : List Nat) (i : Nat) : Decidable (sliceOk buf offsets i) := by
  unfold sliceOk; infer_instance

/-- The text-record decoding loop of `parseMobi`
(`src/utils/mobiParser.ts` lines 34–62): `i` is the current record index and
`n` the number of iterations remaining (the loop runs `i = 1 .. textRecordCount`).
Records whose index is past the offset table `break` the loop; records with an
out-of-range or empty slice are skipped; compression ids other than 1 and 2
cause the early `return` of the explanatory message. -/
def textRecordsLoop (buf offsets : List Nat) (compression : Nat) :
    Nat → Nat → RecordsOutcome
  | _, 0 => .chunks []
  | i, n + 1 =>
    if offsets.length ≤ i then .chunks []
    else if ¬ sliceOk buf offsets i then
      textRecordsLoop buf offsets compression (i + 1) n
    else
      let start := offsets.getD i 0
      let stop := if i + 1 < offsets.length then offsets.getD (i + 1) 0 else buf.length
      let chunk := (buf.drop start).take (stop - start)
      if compression = 2 then
        match textRecordsLoop buf offsets compression (i + 1) n with
        | .unsupported => .unsupported
        | .chunks cs => .chunks (decompressPalmDOC chunk :: cs)
      else if compression = 1 then
        match textRecordsLoop buf offsets compression (i + 1) n with
        | .unsupported => .unsupported
        | .chunks cs => .chunks (chunk :: cs)
      else .unsupported

/-- The user-facing message returned for Huff/CDIC or other unknown
compression ids (`src/utils/mobiParser.ts` lines 53–57). -/
def unsupportedCompressionMessage : List Nat :=
  jstr "<div style=\"padding:20px; text-align:center; color: red;\">
        <h3>Unsupported Compression</h3>
        <p>This MOBI file uses Huff/CDIC compression which is not currently supported in this web reader.</p>
        <p>Please convert it to standard EPUB or TXT.</p>
      </div>"

/-- `parseMobi` (`src/utils/mobiParser.ts` lines 7–85): parse the PDB header,
read the record offset table, read the PalmDOC header from record 0, decode
the text records and resolve the character encoding. A thrown exception
(failed `DataView` read, or the explicit record-count consistency throw) is an
`Except.error`. When the offset table is empty, `recordOffsets[0]` is
`undefined` and `DataView.getUint16(undefined)` reads offset 0 (`ToIndex` maps
`undefined` to 0), which `List.getD _ 0` reproduces. -/
def parseMobi (buf : List Nat) : Except String (List Nat) :=
  match getUint16BE buf 76 with
  | .error e => .error e
  | .ok numRecords =>
    match readOffsets buf 0 numRecords with
    | .error e => .error e
    | .ok offsets =>
      match getUint16BE buf (offsets.getD 0 0) with
      | .error e => .error e
      | .ok compression =>
        match getUint16BE buf (offsets.getD 0 0 + 8) with
        | .error e => .error e
        | .ok textRecordCount =>
          if numRecords < textRecordCount then
            .error "Invalid MOBI file: text record count exceeds total records."
          else
            match textRecordsLoop buf offsets compression 1 textRecordCount with
            | .unsupported => .ok unsupportedCompressionMessage
            | .chunks cs => .ok (resolveText cs.flatten)

/-- JavaScript's whitespace class `\s` (also the set stripped by
`String.prototype.trim`), on UTF-16 code units. -/
def isJsWs (c : Nat) : Bool :=
  c = 9 ∨ c = 10 ∨ c = 11 ∨ c = 12 ∨ c = 13 ∨ c = 32 ∨ c = 0xA0 ∨
    c = 0x1680 ∨ (0x2000 ≤ c ∧ c ≤ 0x200A) ∨ c = 0x2028 ∨ c = 0x2029 ∨
    c = 0x202F ∨ c = 0x205F ∨ c = 0x3000 ∨ c = 0xFEFF

/-- `String.prototype.trim`. -/
def jsTrim (s : List Nat) : List Nat :=
  ((s.dropWhile isJsWs).reverse.dropWhile isJsWs).reverse

/-- The global replace `.replace(/<[^>]+>/g, "\n")` of the MOBI branch of
`extractBookText` (`src/utils/textExtractor.ts` line 37): each maximal
`<`…`>` group with at least one character between the angle brackets becomes a
newline. -/
def stripTags : List Nat → List Nat
  | [] => []
  | c :: rest =>
    if c = 60 then
      match rest.findIdx? (· = 62) with
      | some j => if 1 ≤ j then 10 :: stripTags (rest.drop (j + 1)) else 60 :: stripTags rest
      | none => 60 :: stripTags rest
    else c :: stripTags rest
termination_by l => l.length
decreasing_by
  all_goals simp [List.length_cons, List.length_drop]
  all_goals omega

/-- The global replace `.replace(/\n\s*\n/g, "\n\n")`
(`src/utils/textExtractor.ts` line 37): a newline, a greedy run of whitespace
and a final newline collapse to exactly two newlines; scanning resumes after
the replaced match. -/
def collapseBlank : List Nat → List Nat
  | [] => []
  | c :: rest =>
    if c = 10 then
      let w := rest.takeWhile isJsWs
      match w.reverse.findIdx? (· = 10) with
      | some kRev => 10 :: 10 :: collapseBlank (rest.drop (w.length - kRev))
      | none => 10 :: collapseBlank rest
    else c :: collapseBlank rest
termination_by l => l.length
decreasing_by
  all_goals simp [List.length_cons, List.length_drop]
  all_goals omega

/-- The content of a `Book`: a JavaScript string or an `ArrayBuffer`. -/
inductive BookContent where
  | str : List Nat → BookContent
  | buf : List Nat → BookContent

/-- A `Book` as `extractBookText` consumes it: a format tag and raw content. -/
structure Book where
  format : String
  content : BookContent

/-- The MOBI branch's buffer coercion (`src/utils/textExtractor.ts` lines
33–35): an `ArrayBuffer` is used as is, a string is UTF-8 encoded. -/
def contentBuffer : BookContent → List Nat
  | .buf b => b
  | .str s => textEncoderEncode s

/-- The TXT branch (`src/utils/textExtractor.ts` lines 27–29): a string is
used as is, an `ArrayBuffer` is decoded with the default permissive
`TextDecoder`. -/
def decodeTxt : BookContent → List Nat
  | .str s => s
  | .buf b => utf16OfScalars ((utf8Decode false b).getD [])

/-- The EPUB, PDF, FB2 and RTF extraction helpers of
`src/utils/textExtractor.ts` drive external platform components
(`window.ePub`, `pdfjsLib`, `DOMParser`); they are parameters of the model,
each returning the extracted string or `none` for a thrown error. -/
structure ExternalExtractors where
  epub : BookContent → Option (List Nat)
  pdf : BookContent → Option (List Nat)
  fb2 : BookContent → Option (List Nat)
  rtf : BookContent → Option (List Nat)

/-- The `try { switch (book.format) ... }` of `extractBookText`
(`src/utils/textExtractor.ts` lines 12–41): the extracted `fullText`, or
`none` when the taken branch throws (in particular the `default` branch,
which always throws "Unsupported format for text extraction"). -/
def extractRaw (ext : ExternalExtractors) (book : Book) : Option (List Nat) :=
  if book.format = "epub" then ext.epub book.content
  else if book.format = "pdf" then ext.pdf book.content
  else if book.format = "fb2" then ext.fb2 book.content
  else if book.format = "rtf" then ext.rtf book.content
  else if book.format = "txt" then some (decodeTxt book.content)
  else if book.format = "mobi" ∨ book.format = "azw3" then
    match parseMobi (contentBuffer book.content) with
    | .error _ => none
    | .ok mobiHtml => some (jsTrim (collapseBlank (stripTags mobiHtml)))
  else none

/-- The marker appended on truncation (`src/utils/textExtractor.ts` line 49). -/
def truncationMarker : List Nat :=
  jstr "... [Content Truncated]"

/-- `extractBookText` (`src/utils/textExtractor.ts` lines 9–53): run the
format switch inside `try`; a thrown error is caught and the function returns
the empty string at once. Otherwise, when a non-zero `limit` is given and the
text is longer, return the first `limit` code units with the truncation
marker appended; otherwise return the text unchanged. -/
def extractBookText (ext : ExternalExtractors) (book : Book)
    (limit : Option Nat) : List Nat :=
  match extractRaw ext book with
  | none => []
  | some fullText =>
    match limit with
    | some l =>
      if l ≠ 0 ∧ l < fullText.length then fullText.take l ++ truncationMarker
      else fullText
    | none => fullText

/-!
The page compositor works in points with two decimal places (`595.28`,
`841.89`, `0.5` of a line). Coordinates and widths are therefore modelled in
hundredths of a point, in which every constant of the source and every
reachable cursor value is an exact integer, so the comparisons below agree
exactly with the JavaScript floating-point ones.
-/

/-- A4 page width, 595.28 pt, in hundredths of a point
(`src/components/ConverterView.tsx` line 27). -/
def pageWidth : Nat := 59528

/-- A4 page height, 841.89 pt, in hundredths of a point
(`src/components/ConverterView.tsx` line 28). -/
def pageHeight : Nat := 84189

/-- Page margin, 40 pt, in hundredths of a point
(`src/components/ConverterView.tsx` line 29). -/
def margin : Nat := 4000

/-- Printable width (`src/components/ConverterView.tsx` line 30). -/
def printableWidth : Nat := pageWidth - margin * 2

/-- Line height, 18 pt, in hundredths of a point
(`src/components/ConverterView.tsx` line 31). -/
def lineHeight : Nat := 1800

/-- The binary-search loop of `getFitIndex`
(`src/components/ConverterView.tsx` lines 81–95), over the bounds `mn ≤ mx`
and the best fitting prefix length `res` found so far; `measure` stands for
`ctx.measureText(·).width` in hundredths of a point. This is the literal
`while (min <= max)` loop, defined by well-founded recursion on
`mx + 1 - mn`. -/
def fitSearchLoop (measure : List Nat → Nat) (s : List Nat) (maxW : Nat) :
    Nat → Nat → Nat → Nat
  | mn, mx, res =>
    if mx < mn then res
    else if (mn + mx) / 2 = 0 then fitSearchLoop measure s maxW 1 mx res
    else if measure (s.take ((mn + mx) / 2)) ≤ maxW then
      fitSearchLoop measure s maxW ((mn + mx) / 2 + 1) mx ((mn + mx) / 2)
    else fitSearchLoop measure s maxW mn ((mn + mx) / 2 - 1) res
termination_by mn mx _ => mx + 1 - mn
decreasing_by all_goals omega

/-- The same binary-search loop with explicit fuel (for computability by
reduction); `fitSearchGo_eq` shows fuel beyond `mx + 1 - mn` is enough. -/
def fitSearchGo (measure : List Nat → Nat) (s : List Nat) (maxW : Nat) :
    Nat → Nat → Nat → Nat → Nat
  | 0, _, _, res => res
  | fuel + 1, mn, mx, res =>
    if mx < mn then res
    else if (mn + mx) / 2 = 0 then fitSearchGo measure s maxW fuel 1 mx res
    else if measure (s.take ((mn + mx) / 2)) ≤ maxW then
      fitSearchGo measure s maxW fuel ((mn + mx) / 2 + 1) mx ((mn + mx) / 2)
    else fitSearchGo measure s maxW fuel mn ((mn + mx) / 2 - 1) res

/-- The fuel-indexed binary search agrees with the loop once the fuel
exceeds the size `mx + 1 - mn` of the search interval. -/
theorem fitSearchGo_eq (measure : List Nat → Nat) (s : List Nat) (maxW : Nat) :
    ∀ fuel mn mx res, mx + 1 - mn < fuel →
      fitSearchGo measure s maxW fuel mn mx res = fitSearchLoop measure s maxW mn mx res := by
  intro fuel
  induction fuel with
  | zero => intro mn mx res h; omega
  | succ f ih =>
    intro mn mx res h
    rw [fitSearchGo, fitSearchLoop.eq_def]
    simp only []
    by_cases h1 : mx < mn
    · rw [if_pos h1, if_pos h1]
    · rw [if_neg h1, if_neg h1]
      by_cases h2 : (mn + mx) / 2 = 0
      · rw [if_pos h2, if_pos h2]
        exact ih 1 mx res (by omega)
      · rw [if_neg h2, if_neg h2]
        by_cases h3 : measure (s.take ((mn + mx) / 2)) ≤ maxW
        · rw [if_pos h3, if_pos h3]
          exact ih ((mn + mx) / 2 + 1) mx ((mn + mx) / 2) (by omega)
        · rw [if_neg h3, if_neg h3]
          exact ih mn ((mn + mx) / 2 - 1) res (by omega)

/-- `getFitIndex` (`src/components/ConverterView.tsx` lines 78–97): the
number of leading code units of `s` to draw on one line of width `maxW`.
The fuel `s.length + 2` always exceeds the initial interval size
`s.length + 1`, so by `fitSearchGo_eq` this is the loop itself. -/
def getFitIndex (measure : List Nat → Nat) (s : List Nat) (maxW : Nat) : Nat :=
  if measure s ≤ maxW then s.length
  else fitSearchGo measure s maxW (s.length + 2) 0 s.length 0

/-- `getFitIndex` equals the literal binary-search loop started on
`[0, s.length]`. -/
theorem getFitIndex_eq_loop (measure : List Nat → Nat) (s : List Nat) (maxW : Nat) :
    getFitIndex measure s maxW =
      (if measure s ≤ maxW then s.length else fitSearchLoop measure s maxW 0 s.length 0) := by
  unfold getFitIndex
  by_cases h : measure s ≤ maxW
  · rw [if_pos h, if_pos h]
  · rw [if_neg h, if_neg h]
    exact fitSearchGo_eq measure s maxW (s.length + 2) 0 s.length 0 (by omega)

/-- State of the page compositor: the vertical cursor (hundredths of a
point), the number of intermediate `flushPage` calls so far, and the number
of body lines drawn. -/
structure LayoutState where
  cursorY : Nat
  flushes : Nat
  lines : Nat
deriving DecidableEq

/-- The check `if (cursorY > pageHeight - margin) { await flushPage();
cursorY = margin; }` (`src/components/ConverterView.tsx` lines 133–136). -/
def maybeFlush (st : LayoutState) : LayoutState :=
  if pageHeight - margin < st.cursorY then
    { cursorY := margin, flushes := st.flushes + 1, lines := st.lines }
  else st

/-- The inner line-packing loop `while (p.length > 0)`
(`src/components/ConverterView.tsx` lines 124–137), with explicit fuel:
`none` means the loop did not finish within `fuel` iterations (in particular,
a loop that never consumes input diverges at every fuel). -/
def packLines (measure : List Nat → Nat) :
    Nat → List Nat → LayoutState → Option LayoutState
  | _, [], st => some st
  | 0, _ :: _, _ => none
  | fuel + 1, p₀ :: p₁, st =>
    let fitIdx := getFitIndex measure (p₀ :: p₁) printableWidth
    let st1 := maybeFlush { st with cursorY := st.cursorY + lineHeight, lines := st.lines + 1 }
    packLines measure fuel ((p₀ :: p₁).drop fitIdx) st1

/-- One iteration of the paragraph loop
(`src/components/ConverterView.tsx` lines 111–149): a blank paragraph only
advances the cursor one line; a non-blank one is indented with four spaces,
packed into lines, and followed by half a line of spacing, with the page
flushed whenever the cursor passes the bottom margin. -/
def paraStep (measure : List Nat → Nat) (fuel : Nat) (para : List Nat)
    (st : LayoutState) : Option LayoutState :=
  let p := jsTrim para
  if p.isEmpty then
    some (maybeFlush { st with cursorY := st.cursorY + lineHeight })
  else
    match packLines measure fuel (jstr "    " ++ p) st with
    | none => none
    | some st1 => some (maybeFlush { st1 with cursorY := st1.cursorY + lineHeight / 2 })

/-- The paragraph loop of `createPdfWithCanvas` over the list of paragraphs. -/
def layoutParas (measure : List Nat → Nat) (fuel : Nat) :
    List (List Nat) → LayoutState → Option LayoutState
  | [], st => some st
  | para :: rest, st =>
    match paraStep measure fuel para st with
    | none => none
    | some st1 => layoutParas measure fuel rest st1

/-- The split `text.split(/\r?\n/)` (`src/components/ConverterView.tsx`
line 109), with `acc` the reversed current segment. -/
def splitParas : List Nat → List Nat → List (List Nat)
  | [], acc => [acc.reverse]
  | 13 :: 10 :: rest, acc => acc.reverse :: splitParas rest []
  | 10 :: rest, acc => acc.reverse :: splitParas rest []
  | c :: rest, acc => splitParas rest (c :: acc)

/-- The page-composition core of `createPdfWithCanvas`
(`src/components/ConverterView.tsx` lines 99–152): starting below the title
block (`cursorY = margin` then `cursorY += 50`), lay out all paragraphs and
count pages (intermediate flushes plus the final `flushPage(true)`) and drawn
body lines. `none` marks a diverging line-packing loop. -/
def createPdfLayout (measure : List Nat → Nat) (fuel : Nat) (text : List Nat) :
    Option (Nat × Nat) :=
  match layoutParas measure fuel (splitParas text [])
      { cursorY := margin + 5000, flushes := 0, lines := 0 } with
  | none => none
  | some st => some (st.flushes + 1, st.lines)

/-! ## Helper lemmas about the PalmDOC decompression loop -/

theorem palmLoop_nil (out : List Nat) : palmLoop [] out = out := by
  rw [palmLoop.eq_def]

theorem palmLoop_literalRun (b : Nat) (rest out : List Nat)
    (h1 : 1 ≤ b) (h2 : b ≤ 8) :
    palmLoop (b :: rest) out = palmLoop (rest.drop b) (out ++ rest.take b) := by
  rw [palmLoop.eq_def]
  simp [h1, h2]

theorem palmLoop_literal (b : Nat) (rest out : List Nat)
    (h1 : b < 0x80) (h2 : b = 0 ∨ 9 ≤ b) :
    palmLoop (b :: rest) out = palmLoop rest (out ++ [b]) := by
  have hn : ¬ (1 ≤ b ∧ b ≤ 8) := by omega
  rw [palmLoop.eq_def]
  simp [hn, h1]

theorem palmLoop_spacePair (b : Nat) (rest out : List Nat) (h : 0xC0 ≤ b) :
    palmLoop (b :: rest) out = palmLoop rest (out ++ [32, b ^^^ 0x80]) := by
  have hn : ¬ (1 ≤ b ∧ b ≤ 8) := by omega
  have hn2 : ¬ b < 0x80 := by omega
  rw [palmLoop.eq_def]
  simp [hn, hn2, h]

theorem palmLoop_backRef (b nextByte : Nat) (rest out : List Nat)
    (h1 : 0x80 ≤ b) (h2 : b ≤ 0xBF) :
    palmLoop (b :: nextByte :: rest) out =
      palmLoop rest (copyBack (backRefLength nextByte)
        ((out.length : Int) - ((((b &&& 0x3F) <<< 5) ||| (nextByte >>> 3) : Nat) : Int)) out) := by
  have hn : ¬ (1 ≤ b ∧ b ≤ 8) := by omega
  have hn2 : ¬ b < 0x80 := by omega
  have hn3 : ¬ 0xC0 ≤ b := by omega
  rw [palmLoop.eq_def]
  simp [hn, hn2, hn3]

theorem palmLoop_backRef_eof (b : Nat) (out : List Nat)
    (h1 : 0x80 ≤ b) (h2 : b ≤ 0xBF) :
    palmLoop [b] out = out := by
  have hn : ¬ (1 ≤ b ∧ b ≤ 8) := by omega
  have hn2 : ¬ b < 0x80 := by omega
  have hn3 : ¬ 0xC0 ≤ b := by omega
  rw [palmLoop.eq_def]
  simp [hn, hn2, hn3]

/-- The fuel-indexed loop agrees with the loop once the fuel covers the input
length: every outer iteration consumes at least one input byte. -/
theorem palmLoopFuel_eq (fuel : Nat) : ∀ data out : List Nat,
    data.length ≤ fuel → palmLoopFuel fuel data out = palmLoop data out := by
  induction fuel with
  | zero =>
    intro data out h
    have hd : data = [] := by cases data <;> simp_all
    subst hd
    rw [palmLoop_nil]
    rfl
  | succ f ih =>
    intro data out h
    match data with
    | [] => rw [palmLoop_nil]; rfl
    | b :: rest =>
      have hlen : rest.length ≤ f := by
        simp [List.length_cons] at h; omega
      rw [palmLoopFuel.eq_def, palmLoop.eq_def]
      simp only []
      by_cases h1 : 1 ≤ b ∧ b ≤ 8
      · rw [if_pos h1, if_pos h1]
        exact ih _ _ (by simp [List.length_drop]; omega)
      · rw [if_neg h1, if_neg h1]
        by_cases h2 : b < 0x80
        · rw [if_pos h2, if_pos h2]
          exact ih _ _ hlen
        · rw [if_neg h2, if_neg h2]
          by_cases h3 : 0xC0 ≤ b
          · rw [if_pos h3, if_pos h3]
            exact ih _ _ hlen
          · rw [if_neg h3, if_neg h3]
            match rest with
            | [] => rfl
            | nextByte :: rest2 =>
              exact ih _ _ (by simp [List.length_cons] at hlen ⊢; omega)

/-- Evaluation form of the decompressor: fuel equal to the input length
computes the loop. -/
theorem decompressPalmDOC_eval (data : List Nat) :
    decompressPalmDOC data = palmLoopFuel data.length data [] :=
  (palmLoopFuel_eq data.length data [] le_rfl).symm

/-- Claim C3: `decompressPalmDOC` implements exactly the four-opcode PalmDOC
scheme — a byte in `[0x01, 0x08]` copies that many following bytes verbatim
(trailing bytes beyond the input are simply not there to copy), any other
byte below `0x80` is a single literal, a byte at or above `0xC0` emits a space
followed by `byte XOR 0x80`, and a byte in `[0x80, 0xBF]` consumes one more
byte and copies `(nextByte & 0x07) + 3` bytes one at a time starting at
`output.length - (((byte & 0x3F) << 5) | (nextByte >> 3))`, skipping
out-of-range source indices; in particular `0x04 'a' 'b' 'c' 'd' 0x80 0x20`
decodes to `"abcdabc"`, an overlapping self-referential copy replays
already-emitted bytes, and a back-reference into an empty output emits
nothing rather than erroring. -/
theorem decompressPalmDOC_opcode_scheme :
    (∀ b rest out, 1 ≤ b → b ≤ 8 →
      palmLoop (b :: rest) out = palmLoop (rest.drop b) (out ++ rest.take b)) ∧
    (∀ b rest out, b < 0x80 → (b = 0 ∨ 9 ≤ b) →
      palmLoop (b :: rest) out = palmLoop rest (out ++ [b])) ∧
    (∀ b rest out, 0xC0 ≤ b →
      palmLoop (b :: rest) out = palmLoop rest (out ++ [32, b ^^^ 0x80])) ∧
    (∀ b nextByte rest out, 0x80 ≤ b → b ≤ 0xBF →
      palmLoop (b :: nextByte :: rest) out =
        palmLoop rest (copyBack (backRefLength nextByte)
          ((out.length : Int) - ((((b &&& 0x3F) <<< 5) ||| (nextByte >>> 3) : Nat) : Int)) out)) ∧
    (∀ b out, 0x80 ≤ b → b ≤ 0xBF → palmLoop [b] out = out) ∧
    decompressPalmDOC [0x04, 97, 98, 99, 100, 0x80, 0x20] =
      [97, 98, 99, 100, 97, 98, 99] ∧
    decompressPalmDOC [65, 0x80, 0x08] = [65, 65, 65, 65] ∧
    decompressPalmDOC [0x80, 0x08] = [] :=
  ⟨palmLoop_literalRun, palmLoop_literal, palmLoop_spacePair, palmLoop_backRef,
    palmLoop_backRef_eof,
    (decompressPalmDOC_eval _).trans (by decide),
    (decompressPalmDOC_eval _).trans (by decide),
    (decompressPalmDOC_eval _).trans (by decide)⟩

/-- Witness for claim C3 at a concrete input: the literal-run opcode `0x04`
consumes the four following bytes. -/
theorem decompressPalmDOC_opcode_scheme_witness :
    (1 ≤ 4 ∧ 4 ≤ 8) ∧
      palmLoop (4 :: [97, 98, 99, 100]) [] =
        palmLoop ([97, 98, 99, 100].drop 4) ([] ++ [97, 98, 99, 100].take 4) :=
  ⟨by decide, decompressPalmDOC_opcode_scheme.1 4 [97, 98, 99, 100] []
    (by decide) (by decide)⟩

/-- Claim C10: the decompression loop terminates on every finite input — the
fuel-indexed loop already reaches the fixed point with `data.length` units of
fuel (each outer iteration strictly advances the cursor), and every
back-reference copy is bounded by `backRefLength _ ≤ 10`. -/
theorem decompressPalmDOC_terminates :
    (∀ (fuel : Nat) (data out : List Nat), data.length ≤ fuel →
      palmLoopFuel fuel data out = palmLoop data out) ∧
    (∀ data : List Nat, palmLoopFuel data.length data [] = decompressPalmDOC data) ∧
    (∀ nextByte : Nat, backRefLength nextByte ≤ 10) := by
  refine ⟨palmLoopFuel_eq, fun data => (decompressPalmDOC_eval data).symm, fun nextByte => ?_⟩
  have := Nat.and_le_right (n := nextByte) (m := 0x07)
  unfold backRefLength
  omega

/-- Witness for claim C10 at a concrete input. -/
theorem decompressPalmDOC_terminates_witness :
    ([65, 66, 0xC1].length ≤ 3) ∧
      palmLoopFuel 3 [65, 66, 0xC1] [] = palmLoop [65, 66, 0xC1] [] :=
  ⟨by decide, decompressPalmDOC_terminates.1 3 [65, 66, 0xC1] [] (by decide)⟩

/-! ## Container-level error handling (claims C4 and C8) -/

/-- A container with two records whose text record 1 has its offset (9999)
far past the end of the 104-byte buffer: `numRecords = 2` at byte 76, record
offsets 94 and 9999 in the table at byte 78, and record 0 (at byte 94)
declaring compression 1 and one text record. -/
def oobSliceBuf : List Nat :=
  List.replicate 76 0 ++ [0, 2] ++ [0, 0, 0, 94, 0, 0, 0, 0] ++
    [0, 0, 0x27, 0x0F, 0, 0, 0, 0] ++ [0, 1] ++ [0, 0, 0, 0, 0, 0] ++ [0, 1]

/-- Claim C4 is refuted at `oobSliceBuf`: record 1's slice starts at offset
9999, past the 104-byte buffer, yet `parseMobi` succeeds with the empty
string — the record is silently skipped, not a `MalformedContainer`
failure. -/
theorem parseMobi_accepts_oob_record_slice :
    parseMobi oobSliceBuf = .ok [] ∧ oobSliceBuf.length = 104 ∧
      getUint32BE oobSliceBuf 86 = .ok 9999 ∧ ¬ sliceOk oobSliceBuf [94, 9999] 1 := by
  refine ⟨?_, by decide, by decide, by decide⟩
  decide

/-- Claim C4 (amended): `parseMobi` does fail when the buffer is too short
for the header reads (the first `DataView` read at byte 76 throws a
`RangeError`), but a record whose computed slice is out of range or empty is
silently skipped by the text-record loop — the loop moves on to the next
index — rather than failing. -/
theorem parseMobi_short_buffer_error_oob_slice_skipped :
    (∀ buf : List Nat, buf.length < 78 → ∃ e, parseMobi buf = .error e) ∧
    (∀ (buf offsets : List Nat) (comp i n : Nat), i < offsets.length →
      ¬ sliceOk buf offsets i →
      textRecordsLoop buf offsets comp i (n + 1) =
        textRecordsLoop buf offsets comp (i + 1) n) := by
  constructor
  · intro buf h
    refine ⟨"RangeError: Offset is outside the bounds of the DataView", ?_⟩
    have h76 : getUint16BE buf 76 =
        .error "RangeError: Offset is outside the bounds of the DataView" := by
      unfold getUint16BE
      rw [if_neg (by omega)]
    unfold parseMobi
    rw [h76]
  · intro buf offsets comp i n hi hbad
    rw [textRecordsLoop.eq_def]
    simp only []
    rw [if_neg (by omega : ¬ offsets.length ≤ i), if_pos hbad]

/-- Witness for claim C4 at concrete inputs: the empty buffer fails, and a
loop iteration at an invalid slice just advances the index. -/
theorem parseMobi_short_buffer_witness :
    (([] : List Nat).length < 78 ∧ (∃ e, parseMobi [] = .error e)) ∧
      (0 < [(0 : Nat)].length ∧ ¬ sliceOk [] [0] 0 ∧
        textRecordsLoop [] [0] 1 0 1 = textRecordsLoop [] [0] 1 1 0) :=
  ⟨⟨by decide, parseMobi_short_buffer_error_oob_slice_skipped.1 [] (by decide)⟩,
    ⟨by decide, by decide,
      parseMobi_short_buffer_error_oob_slice_skipped.2 [] [0] 1 0 0 (by decide) (by decide)⟩⟩

/-- A container whose record 0 (at byte 86) declares compression id 3 and
zero text records: `numRecords = 1`, offset table entry 86, compression bytes
`[0, 3]` at 86, text-record count `[0, 0]` at 94. -/
def huffNoRecordsBuf : List Nat :=
  List.replicate 76 0 ++ [0, 1] ++ [0, 0, 0, 86, 0, 0, 0, 0] ++
    [0, 3] ++ [0, 0, 0, 0, 0, 0] ++ [0, 0]

/-- Claim C8 is refuted at `huffNoRecordsBuf`: its compression id is 3
(neither 1 nor 2), yet `parseMobi` returns the empty string, not the
unsupported-compression message — the message is only produced while
processing a text record, and this container has none. -/
theorem parseMobi_unknown_compression_no_records :
    getUint16BE huffNoRecordsBuf 86 = .ok 3 ∧
      readOffsets huffNoRecordsBuf 0 1 = .ok [86] ∧
      parseMobi huffNoRecordsBuf = .ok [] ∧
      ([] : List Nat) ≠ unsupportedCompressionMessage := by
  refine ⟨by decide, by decide, ?_, by decide⟩
  decide

/-- A text record processed under a compression id other than 1 and 2 makes
the record loop return the early unsupported-compression outcome, regardless
of earlier skipped records. -/
theorem textRecordsLoop_unsupported (buf offsets : List Nat) (comp : Nat)
    (hc1 : comp ≠ 1) (hc2 : comp ≠ 2) :
    ∀ n i j, i ≤ j → j < i + n → j < offsets.length → sliceOk buf offsets j →
      textRecordsLoop buf offsets comp i n = .unsupported := by
  intro n
  induction n with
  | zero => intro i j h1 h2 h3 h4; omega
  | succ m ih =>
    intro i j h1 h2 h3 h4
    rw [textRecordsLoop.eq_def]
    simp only []
    rw [if_neg (by omega : ¬ offsets.length ≤ i)]
    by_cases hs : sliceOk buf offsets i
    · rw [if_neg (not_not_intro hs)]
      simp [hc1, hc2]
    · rw [if_pos hs]
      have hij : i ≠ j := fun he => hs (he ▸ h4)
      exact ih (i + 1) j (by omega) (by omega) h3 h4

/-- Claim C8 (amended): whenever the container's record-0 compression id is
neither 1 nor 2 and the text-record loop actually processes at least one
record (some index `j` in `[1, textRecordCount]` inside the offset table with
a valid slice), `parseMobi` returns (`Except.ok`) the user-facing
unsupported-compression message instead of throwing. -/
theorem parseMobi_unsupported_compression_message
    (buf offsets : List Nat) (nr comp trc j : Nat)
    (h1 : getUint16BE buf 76 = .ok nr)
    (h2 : readOffsets buf 0 nr = .ok offsets)
    (h3 : getUint16BE buf (offsets.getD 0 0) = .ok comp)
    (h4 : getUint16BE buf (offsets.getD 0 0 + 8) = .ok trc)
    (h5 : trc ≤ nr) (hc1 : comp ≠ 1) (hc2 : comp ≠ 2)
    (hj1 : 1 ≤ j) (hj2 : j < 1 + trc) (hj3 : j < offsets.length)
    (hj4 : sliceOk buf offsets j) :
    parseMobi buf = .ok unsupportedCompressionMessage := by
  unfold parseMobi
  rw [h1]; simp only []
  rw [h2]; simp only []
  rw [h3]; simp only []
  rw [h4]; simp only []
  rw [if_neg (by omega : ¬ nr < trc),
    textRecordsLoop_unsupported buf offsets comp hc1 hc2 trc 1 j hj1 hj2 hj3 hj4]

/-- A container with two records, compression id 3 and one valid text record
(offset 104 inside the 105-byte buffer). -/
def huffOneRecordBuf : List Nat :=
  List.replicate 76 0 ++ [0, 2] ++ [0, 0, 0, 94, 0, 0, 0, 0] ++
    [0, 0, 0, 104, 0, 0, 0, 0] ++ [0, 3] ++ [0, 0, 0, 0, 0, 0] ++ [0, 1] ++ [88]

/-- Witness for claim C8: a container with compression id 3 and one
processable text record yields the unsupported-compression message. -/
theorem parseMobi_unsupported_compression_witness :
    parseMobi huffOneRecordBuf = .ok unsupportedCompressionMessage :=
  parseMobi_unsupported_compression_message huffOneRecordBuf [94, 104] 2 3 1 1
    (by decide) (by decide) (by decide) (by decide) (by decide) (by decide)
    (by decide) (by decide) (by decide) (by decide) (by decide)

/-! ## Facade-level error handling and truncation (claims C2, C5, C9) -/

/-- External extractors that always throw; the MOBI, TXT and unknown-format
paths of `extractBookText` never consult them. -/
def noExternals : ExternalExtractors :=
  ⟨fun _ => none, fun _ => none, fun _ => none, fun _ => none⟩

/-- The format tags recognized by the `switch` of `extractBookText`. -/
def recognizedFormats : List String :=
  ["epub", "pdf", "fb2", "rtf", "txt", "mobi", "azw3"]

/-- Claim C2 is refuted at the empty MOBI buffer: `parseMobi` throws (the
first header read is out of bounds), yet `extractBookText` swallows the error
and returns the empty string — a result, not a propagated failure. -/
theorem extractBookText_mobi_error_swallowed :
    parseMobi (contentBuffer (BookContent.buf [])) =
      .error "RangeError: Offset is outside the bounds of the DataView" ∧
    extractBookText noExternals ⟨"mobi", .buf []⟩ (some 10000000) = [] := by
  constructor
  · decide
  · decide

/-- Claim C2 (amended): a decoding-layer failure on the MOBI/AZW3 path does
not propagate out of `extractBookText`; the `catch` swallows it into the
empty-string result, exactly as for the other formats. -/
theorem extractBookText_swallows_mobi_error
    (ext : ExternalExtractors) (book : Book) (lim : Option Nat) (e : String)
    (hf : book.format = "mobi" ∨ book.format = "azw3")
    (hp : parseMobi (contentBuffer book.content) = .error e) :
    extractBookText ext book lim = [] := by
  have hraw : extractRaw ext book = none := by
    unfold extractRaw
    rcases hf with h | h <;>
      (rw [h, if_neg (by decide), if_neg (by decide), if_neg (by decide),
        if_neg (by decide), if_neg (by decide), if_pos (by decide)]
       rw [hp])
  unfold extractBookText
  rw [hraw]

/-- Witness for claim C2: the concrete empty-buffer MOBI book. -/
theorem extractBookText_swallows_mobi_error_witness :
    extractBookText noExternals ⟨"azw3", .buf []⟩ none = [] :=
  extractBookText_swallows_mobi_error noExternals ⟨"azw3", .buf []⟩ none
    "RangeError: Offset is outside the bounds of the DataView"
    (Or.inr rfl) (by decide)

/-- Claim C5 is refuted at an unknown tag: the `default` branch throws, the
`catch` swallows it, and `extractBookText` returns the empty string — the
error never reaches the caller. -/
theorem extractBookText_unknown_format_returns_empty :
    extractRaw noExternals ⟨"docx", .buf []⟩ = none ∧
      extractBookText noExternals ⟨"docx", .buf []⟩ none = [] := by
  constructor
  · decide
  · decide

/-- Claim C5 (amended): for a format tag outside the recognized set the
`switch` default throws `UnsupportedFormat`, the surrounding `catch` swallows
it, and `extractBookText` returns the empty string instead of failing. -/
theorem extractBookText_unknown_format_empty
    (ext : ExternalExtractors) (book : Book) (lim : Option Nat)
    (h : book.format ∉ recognizedFormats) :
    extractRaw ext book = none ∧ extractBookText ext book lim = [] := by
  simp only [recognizedFormats, List.mem_cons, List.not_mem_nil, or_false,
    not_or] at h
  obtain ⟨h1, h2, h3, h4, h5, h6, h7⟩ := h
  have hraw : extractRaw ext book = none := by
    unfold extractRaw
    rw [if_neg h1, if_neg h2, if_neg h3, if_neg h4, if_neg h5,
      if_neg (not_or.mpr ⟨h6, h7⟩)]
  refine ⟨hraw, ?_⟩
  unfold extractBookText
  rw [hraw]

/-- Witness for claim C5 at the concrete tag `"cbz"`. -/
theorem extractBookText_unknown_format_empty_witness :
    ("cbz" ∉ recognizedFormats) ∧
      (extractRaw noExternals ⟨"cbz", .str []⟩ = none ∧
        extractBookText noExternals ⟨"cbz", .str []⟩ (some 7) = []) :=
  ⟨by decide, extractBookText_unknown_format_empty noExternals ⟨"cbz", .str []⟩
    (some 7) (by decide)⟩

/-- Claim C9: with a positive `limit`, a successfully extracted text longer
than `limit` is cut to its first `limit` code units with the visible
truncation marker appended, and a text of at most `limit` code units is
returned unchanged. -/
theorem extractBookText_truncates
    (ext : ExternalExtractors) (book : Book) (t : List Nat) (l : Nat)
    (hr : extractRaw ext book = some t) (hl : 0 < l) :
    extractBookText ext book (some l) =
      (if l < t.length then t.take l ++ truncationMarker else t) := by
  unfold extractBookText
  rw [hr]
  simp only []
  by_cases hc : l < t.length
  · rw [if_pos (show l ≠ 0 ∧ l < t.length from ⟨by omega, hc⟩), if_pos hc]
  · rw [if_neg (show ¬ (l ≠ 0 ∧ l < t.length) from fun hand => hc hand.2),
      if_neg hc]

/-- Witness for claim C9: an 11-code-unit TXT body truncated at 5. -/
theorem extractBookText_truncates_witness :
    extractBookText noExternals ⟨"txt", .str (jstr "hello world")⟩ (some 5) =
      jstr "hello" ++ truncationMarker :=
  (extractBookText_truncates noExternals ⟨"txt", .str (jstr "hello world")⟩
    (jstr "hello world") 5 (by decide) (by decide)).trans (by decide)

/-! ## Encoding resolution (claim C7) -/

set_option maxHeartbeats 2000000 in
/-- The permissive (`fatal = false`) UTF-8 decoder never fails: with fuel
covering the input it always returns `some`, replacing invalid sequences by
U+FFFD instead of erroring. -/
theorem utf8DecodeGo_false_isSome :
    ∀ (fuel : Nat) (l : List Nat), l.length ≤ fuel →
      (utf8DecodeGo false fuel l).isSome := by
  intro fuel l
  induction fuel, l using utf8DecodeGo.induct false
  all_goals intro h
  all_goals try simp only [List.length_cons] at h
  all_goals rw [utf8DecodeGo.eq_def]
  all_goals simp only [Option.isSome_map', Bool.false_eq_true, List.length_cons]
  all_goals repeat' split
  all_goals first
    | contradiction
    | (exfalso; omega)
    | rfl
    | (simp only [Option.isSome_map']
       apply_assumption
       try simp only [List.length_cons]
       omega)

/-- The permissive UTF-8 decoder is total on every byte buffer. -/
theorem utf8Decode_false_isSome (bytes : List Nat) :
    (utf8Decode false bytes).isSome :=
  utf8DecodeGo_false_isSome bytes.length bytes le_rfl

/-- Claim C7: the encoding resolution tries strict UTF-8 first, then strict
GBK, then the permissive UTF-8 fallback, which always yields a string — a
valid-UTF-8 buffer decodes without fallback, an invalid-UTF-8 valid-GBK
buffer decodes via the GBK path, and a buffer invalid in both is decoded
permissively without any failure; witnessed concretely by the UTF-8 encoding
of U+4E2D, the GBK pair `0xD6 0xD0`, and the lone byte `0xFF`. -/
theorem resolveText_encoding_chain :
    (∀ bytes s, utf8Decode true bytes = some s →
      resolveText bytes = utf16OfScalars s) ∧
    (∀ bytes s, utf8Decode true bytes = none → gbkDecode bytes = some s →
      resolveText bytes = utf16OfScalars s) ∧
    (∀ bytes, utf8Decode true bytes = none → gbkDecode bytes = none →
      ∃ s, utf8Decode false bytes = some s ∧
        resolveText bytes = utf16OfScalars s) ∧
    (utf8Decode true [0xE4, 0xB8, 0xAD] = some [0x4E2D] ∧
      resolveText [0xE4, 0xB8, 0xAD] = [0x4E2D]) ∧
    (utf8Decode true [0xD6, 0xD0] = none ∧ (gbkDecode [0xD6, 0xD0]).isSome) ∧
    (utf8Decode true [0xFF] = none ∧ gbkDecode [0xFF] = none ∧
      resolveText [0xFF] = [0xFFFD]) := by
  refine ⟨?_, ?_, ?_, by decide, by decide, by decide⟩
  · intro bytes s h
    unfold resolveText
    rw [h]
  · intro bytes s h1 h2
    unfold resolveText
    rw [h1]
    simp only []
    rw [h2]
  · intro bytes h1 h2
    obtain ⟨s, hs⟩ := Option.isSome_iff_exists.mp (utf8Decode_false_isSome bytes)
    refine ⟨s, hs, ?_⟩
    unfold resolveText
    rw [h1]
    simp only []
    rw [h2]
    simp only []
    rw [hs, Option.getD_some]

/-- Witness for claim C7: a plain ASCII byte decodes on the strict UTF-8
path. -/
theorem resolveText_encoding_chain_witness :
    utf8Decode true [65] = some [65] ∧ resolveText [65] = utf16OfScalars [65] :=
  ⟨by decide, resolveText_encoding_chain.1 [65] [65] (by decide)⟩

/-! ## Page composition (claims C6 and C1) -/

/-- A measurement context in which every code unit is 200 pt wide (20000
hundredths): a line of the 515.28 pt printable width holds exactly two code
units. -/
def measureChar200 (s : List Nat) : Nat := 20000 * s.length

/-- A measurement context in which every code unit is 1000 pt wide — a
single character already exceeds the 515.28 pt printable width. -/
def measureWide (s : List Nat) : Nat := 100000 * s.length

set_option maxRecDepth 10000 in
/-- Claim C6 is refuted: `k = floor((H - 2*margin)/L) = 42`, but a single
paragraph laying out to exactly 42 lines (80 two-hundred-point characters at
two per line, plus the four-space indent) already flushes once and produces a
two-page document, because the body starts 50 pt below the top margin (after
the title block) and each paragraph is followed by half a line of spacing. -/
theorem createPdfLayout_k_lines_two_pages :
    (pageHeight - 2 * margin) / lineHeight = 42 ∧
      createPdfLayout measureChar200 100 (List.replicate 80 97) = some (2, 42) := by
  constructor
  · decide
  · decide

set_option maxRecDepth 10000 in
/-- Claim C6 (amended): under the fixed geometry the body starts at
`margin + 50pt` below the title and each paragraph adds half a line of
spacing, so the first-page capacity for a single paragraph is 39 lines — a
paragraph laying out to 39 lines yields one page, and one laying out to 40
lines flushes and yields two. -/
theorem createPdfLayout_first_page_capacity :
    createPdfLayout measureChar200 100 (List.replicate 74 97) = some (1, 39) ∧
      createPdfLayout measureChar200 100 (List.replicate 76 97) = some (2, 40) := by
  constructor
  · decide
  · decide

/-- Claim C1 is wrong about the code: when no non-empty prefix of the line
fits (a single character wider than the printable area), `getFitIndex`
returns 0, not 1 — its `result` variable is initialised to 0 and only ever
set to a fitting prefix length — and the line-packing loop then never
consumes input: it diverges at every fuel, so the page compositor hangs
instead of advancing the cursor. -/
theorem getFitIndex_zero_no_progress :
    printableWidth < measureWide (jstr "W") ∧
      getFitIndex measureWide (jstr "W") printableWidth = 0 ∧
      ∀ fuel st, packLines measureWide fuel (jstr "W") st = none := by
  have hW : jstr "W" = [87] := by decide
  have hfit : getFitIndex measureWide [87] printableWidth = 0 := by decide
  refine ⟨by decide, by decide, ?_⟩
  rw [hW]
  intro fuel
  induction fuel with
  | zero => intro st; rfl
  | succ f ih =>
    intro st
    rw [packLines.eq_def]
    simp only []
    rw [hfit]
    exact ih _

end ClawReader
